import Mathlib

/-
Shallow embedding of the `livre` single-instrument limit order book
(src/lib.rs).  Rust `BTreeMap<u64, VecDeque<Order>>` is modelled as an
association list `List (Nat × List Order)` whose keys are kept in strictly
ascending order by `btInsert`; `HashMap<u64, LevelIdentifier>` is modelled
as an association list `List (Nat × LevelIdentifier)` with unique keys.
The matching sweep of `match_order` is a loop that can fail to terminate,
so it is modelled with explicit fuel: a `none` result means the loop was
still running when the fuel ran out (for genuinely divergent inputs this
holds for every fuel).  A `none` result of `cancel_order` models a panic
of one of its `unwrap` calls.
-/

set_option autoImplicit false

namespace Livre

inductive LivreError where
  | UnfillableOrder
  | OrderNotFound
  | DuplicateOrderId
  | QuantityTooBig
  deriving DecidableEq

inductive OrderType where
  | FillAndKill
  | GoodTillCancel
  | FillOrKill
  | GoodForDay
  | Market
  deriving DecidableEq

inductive Side where
  | Bid
  | Ask
  deriving DecidableEq

inductive OrderState where
  | Filled
  | PartialFill (filled : Nat)
  | Unfilled
  deriving DecidableEq

structure Order where
  order_id : Nat
  order_type : OrderType
  side : Side
  price : Nat
  initial_quantity : Nat
  remaining_quantity : Nat
  deriving DecidableEq

def Order.new (order_type : OrderType) (order_id : Nat) (side : Side)
    (price : Nat) (quantity : Nat) : Order :=
  { order_id := order_id
    order_type := order_type
    side := side
    price := price
    initial_quantity := quantity
    remaining_quantity := quantity }

def Order.is_filled (o : Order) : Bool :=
  o.remaining_quantity == 0

def Order.order_state (o : Order) : OrderState :=
  if o.initial_quantity == o.remaining_quantity then .Unfilled
  else if o.is_filled then .Filled
  else .PartialFill (o.initial_quantity - o.remaining_quantity)

def Order.fill (o : Order) (quantity : Nat) : Except LivreError Order :=
  if quantity > o.remaining_quantity then .error .QuantityTooBig
  else .ok { o with remaining_quantity := o.remaining_quantity - quantity }

/-- The result of `fill` when it cannot fail (the source unwraps it);
`fill_ok` below ties it to `Order.fill`. -/
def Order.fillU (o : Order) (quantity : Nat) : Order :=
  { o with remaining_quantity := o.remaining_quantity - quantity }

theorem Order.fill_ok (o : Order) (q : Nat) (h : q ≤ o.remaining_quantity) :
    o.fill q = .ok (o.fillU q) := by
  simp [Order.fill, Order.fillU, Nat.not_lt.mpr h]

structure ModifyOrder where
  order_id : Nat
  side : Side
  price : Nat
  quantity : Nat
  deriving DecidableEq

def ModifyOrder.to_order (m : ModifyOrder) (order_type : OrderType) : Order :=
  Order.new order_type m.order_id m.side m.price m.quantity

structure Trade where
  taker_order_id : Nat
  maker_order_id : Nat
  price : Nat
  quantity : Nat
  deriving DecidableEq

structure LevelIdentifier where
  price : Nat
  side : Side
  deriving DecidableEq

structure MatchInfo where
  trade_log : List Trade
  order_state : OrderState
  deriving DecidableEq

/-! Association-list model of the two map types used by the book. -/

/-- Model of `BTreeMap::insert`: replaces the value at an existing key,
otherwise inserts keeping keys in ascending order. -/
def btInsert {α : Type} (k : Nat) (v : α) : List (Nat × α) → List (Nat × α)
  | [] => [(k, v)]
  | (k1, v1) :: rest =>
    if k < k1 then (k, v) :: (k1, v1) :: rest
    else if k == k1 then (k, v) :: rest
    else (k1, v1) :: btInsert k v rest

def btLookup {α : Type} (k : Nat) : List (Nat × α) → Option α
  | [] => none
  | (k1, v1) :: rest => if k == k1 then some v1 else btLookup k rest

/-- Model of `BTreeMap::pop_first`: smallest key with the rest of the map. -/
def popFirst {α : Type} : List (Nat × α) → Option ((Nat × α) × List (Nat × α))
  | [] => none
  | x :: rest => some (x, rest)

/-- Model of `BTreeMap::pop_last`: largest key with the rest of the map. -/
def popLast {α : Type} : List (Nat × α) → Option ((Nat × α) × List (Nat × α))
  | [] => none
  | x :: rest =>
    match popLast rest with
    | none => some (x, [])
    | some (y, rest1) => some (y, x :: rest1)

def btFirstKV {α : Type} (m : List (Nat × α)) : Option (Nat × α) :=
  m.head?

def btLastKV {α : Type} (m : List (Nat × α)) : Option (Nat × α) :=
  (popLast m).map Prod.fst

/-- Model of `HashMap::insert`. -/
def hmInsert {α : Type} (k : Nat) (v : α) (m : List (Nat × α)) : List (Nat × α) :=
  if m.any (fun p => p.1 == k) then
    m.map (fun p => if p.1 == k then (k, v) else p)
  else m ++ [(k, v)]

/-- Model of `HashMap::get`. -/
def hmLookup {α : Type} (k : Nat) : List (Nat × α) → Option α
  | [] => none
  | (k1, v1) :: rest => if k1 == k then some v1 else hmLookup k rest

/-- Model of `HashMap::contains_key`. -/
def hmContains {α : Type} (k : Nat) (m : List (Nat × α)) : Bool :=
  (hmLookup k m).isSome

/-- Model of `HashMap::remove` (the removed value, when present, is
`hmLookup`). -/
def hmRemove {α : Type} (k : Nat) (m : List (Nat × α)) : List (Nat × α) :=
  m.filter (fun p => !(p.1 == k))

/-! The order book. -/

structure Orderbook where
  bids : List (Nat × List Order)
  asks : List (Nat × List Order)
  orders : List (Nat × LevelIdentifier)
  deriving DecidableEq

def Orderbook.new : Orderbook :=
  { bids := [], asks := [], orders := [] }

def Orderbook.sideLevels (b : Orderbook) : Side → List (Nat × List Order)
  | .Ask => b.asks
  | .Bid => b.bids

def Orderbook.setSideLevels (b : Orderbook) : Side → List (Nat × List Order) → Orderbook
  | .Ask, m => { b with asks := m }
  | .Bid, m => { b with bids := m }

def Orderbook.order_count (b : Orderbook) : Nat :=
  b.orders.length

def Orderbook.can_match (b : Orderbook) (side : Side) (price : Nat) : Bool :=
  match side with
  | .Ask =>
    match btLastKV b.bids with
    | some (best_price, _) => best_price ≥ price
    | none => false
  | .Bid =>
    match btFirstKV b.asks with
    | some (best_price, _) => best_price ≤ price
    | none => false

/-- Loop body of `can_fully_fill`, over the level iterator it builds
(`bids.iter()` for an Ask, `asks.iter().rev()` for a Bid). -/
def canFullyFillLoop (side : Side) (price : Nat) :
    Nat → List (Nat × List Order) → Bool
  | _, [] => false
  | quantity, (level_price, queue) :: rest =>
    if (side == .Ask && level_price < price) || (side == .Bid && level_price > price) then
      false
    else
      let level_quantity := (queue.map Order.remaining_quantity).sum
      if quantity ≤ level_quantity then true
      else canFullyFillLoop side price (quantity - level_quantity) rest

def Orderbook.can_fully_fill (b : Orderbook) (price : Nat) (quantity : Nat)
    (side : Side) : Bool :=
  if !(b.can_match side price) then false
  else
    let levels :=
      match side with
      | .Ask => b.bids
      | .Bid => b.asks.reverse
    canFullyFillLoop side price quantity levels

/-- Inner loop of `match_level`: walks the FIFO queue of the level, filling the
front resting order against the incoming one; a fully filled maker is
removed from the queue and from the index.  Structural recursion on the
queue: the loop body either pops the queue or fills the incoming order and
exits. -/
def matchLevelLoop (ordersIdx : List (Nat × LevelIdentifier))
    (queue : List Order) (order : Order) (trade_log : List Trade)
    (best_price : Nat) :
    List (Nat × LevelIdentifier) × List Order × Order × List Trade :=
  match queue with
  | [] => (ordersIdx, [], order, trade_log)
  | maker :: rest =>
    if order.is_filled then (ordersIdx, maker :: rest, order, trade_log)
    else
      let trade_quantity := min maker.remaining_quantity order.remaining_quantity
      let maker1 := maker.fillU trade_quantity
      let order1 := order.fillU trade_quantity
      let log1 := trade_log ++
        [{ taker_order_id := order.order_id
           maker_order_id := maker.order_id
           price := best_price
           quantity := trade_quantity }]
      if maker1.is_filled then
        matchLevelLoop (hmRemove maker.order_id ordersIdx) rest order1 log1 best_price
      else (ordersIdx, maker1 :: rest, order1, log1)

/-- Model of `match_level`: after sweeping the queue, a non-empty leftover queue is
re-inserted — into `self.asks`, unconditionally, exactly as in the source
(line 321), whatever side the level came from. -/
def Orderbook.match_level (b : Orderbook) (best_price : Nat)
    (queue : List Order) (order : Order) (trade_log : List Trade) :
    Orderbook × Order × List Trade :=
  let r := matchLevelLoop b.orders queue order trade_log best_price
  let b1 : Orderbook := { b with orders := r.1 }
  if r.2.1.isEmpty then (b1, r.2.2.1, r.2.2.2)
  else ({ b1 with asks := btInsert best_price r.2.1 b1.asks }, r.2.2.1, r.2.2.2)

/-- Outer sweep of `match_order` for an incoming Bid, modelled with fuel;
the source loop has no is_filled exit. -/
def matchOrderLoopBid (fuel : Nat) (b : Orderbook) (order : Order)
    (trade_log : List Trade) : Option (Orderbook × Order × List Trade) :=
  match fuel with
  | 0 => none
  | fuel + 1 =>
    match popFirst b.asks with
    | none => some (b, order, trade_log)
    | some ((best_price, queue), rest) =>
      if best_price > order.price then
        some ({ b with asks := btInsert best_price queue rest }, order, trade_log)
      else
        let r := Orderbook.match_level { b with asks := rest } best_price queue order trade_log
        matchOrderLoopBid fuel r.1 r.2.1 r.2.2

/-- Outer sweep of `match_order` for an incoming Ask, modelled with fuel. -/
def matchOrderLoopAsk (fuel : Nat) (b : Orderbook) (order : Order)
    (trade_log : List Trade) : Option (Orderbook × Order × List Trade) :=
  match fuel with
  | 0 => none
  | fuel + 1 =>
    match popLast b.bids with
    | none => some (b, order, trade_log)
    | some ((best_price, queue), rest) =>
      if best_price < order.price then
        some ({ b with bids := btInsert best_price queue rest }, order, trade_log)
      else
        let r := Orderbook.match_level { b with bids := rest } best_price queue order trade_log
        matchOrderLoopAsk fuel r.1 r.2.1 r.2.2

def Orderbook.match_order (fuel : Nat) (b : Orderbook) (order : Order) :
    Option (Orderbook × Order × List Trade) :=
  match order.side with
  | .Bid => matchOrderLoopBid fuel b order []
  | .Ask => matchOrderLoopAsk fuel b order []

def restingEligible : OrderType → Bool
  | .GoodForDay => true
  | .Market => true
  | .GoodTillCancel => true
  | _ => false

/-- Model of `entry(price).or_insert_with(VecDeque::new).push_back(order)`. -/
def btPushBack (price : Nat) (o : Order) (m : List (Nat × List Order)) :
    List (Nat × List Order) :=
  match btLookup price m with
  | some queue => btInsert price (queue ++ [o]) m
  | none => btInsert price [o] m

/-- The part of `add_order` after the admission `match`: run the matching
sweep, then rest the remainder when eligible. -/
def addOrderRest (fuel : Nat) (b : Orderbook) (order : Order) :
    Option (Except LivreError MatchInfo × Orderbook) :=
  match Orderbook.match_order fuel b order with
  | none => none
  | some (b1, order1, trade_log) =>
    let order_state := order1.order_state
    if !order1.is_filled && restingEligible order1.order_type then
      let b2 : Orderbook :=
        { b1 with orders :=
            hmInsert order1.order_id ⟨order1.price, order1.side⟩ b1.orders }
      let b3 := b2.setSideLevels order1.side
        (btPushBack order1.price order1 (b2.sideLevels order1.side))
      some (.ok { trade_log := trade_log, order_state := order_state }, b3)
    else
      some (.ok { trade_log := trade_log, order_state := order_state }, b1)

/-- Model of `add_order`: admission policy keyed on order type, then the shared
match-and-rest code.  `FillAndKill`/`FillOrKill` are matched by the first
two arms; only the remaining types reach the duplicate-id guard. -/
def Orderbook.add_order (fuel : Nat) (b : Orderbook) (order : Order) :
    Option (Except LivreError MatchInfo × Orderbook) :=
  match order.order_type with
  | .FillAndKill =>
    if !(b.can_match order.side order.price) then
      some (.error .UnfillableOrder, b)
    else addOrderRest fuel b order
  | .FillOrKill =>
    if !(b.can_fully_fill order.price order.initial_quantity order.side) then
      some (.error .UnfillableOrder, b)
    else addOrderRest fuel b order
  | _ =>
    if hmContains order.order_id b.orders then
      some (.error .DuplicateOrderId, b)
    else addOrderRest fuel b order

/-- Model of `cancel_order`; a `none` result stands for a panic of one of the two
`unwrap` calls (index pointing at a missing level or at a level without
the order). -/
def Orderbook.cancel_order (b : Orderbook) (order_id : Nat) :
    Option (Except LivreError Order × Orderbook) :=
  match hmLookup order_id b.orders with
  | some lvl =>
    match btLookup lvl.price (b.sideLevels lvl.side) with
    | none => none
    | some queue =>
      match queue.findIdx? (fun o => o.order_id == order_id) with
      | none => none
      | some idx =>
        match hmLookup order_id b.orders with
        | none => some (.error .OrderNotFound, b)
        | some _ =>
          let b1 : Orderbook := { b with orders := hmRemove order_id b.orders }
          match queue[idx]? with
          | none => some (.error .OrderNotFound, b1)
          | some removed =>
            let b2 := b1.setSideLevels lvl.side
              (btInsert lvl.price (queue.eraseIdx idx) (b1.sideLevels lvl.side))
            some (.ok removed, b2)
  | none => some (.error .OrderNotFound, b)

def Orderbook.modify_order (fuel : Nat) (b : Orderbook) (m : ModifyOrder) :
    Option (Except LivreError MatchInfo × Orderbook) :=
  match b.cancel_order m.order_id with
  | none => none
  | some (.error e, b1) => some (.error e, b1)
  | some (.ok old_order, b1) =>
    Orderbook.add_order fuel b1 (m.to_order old_order.order_type)

end Livre

/-! Map lemmas used by the claim proofs. -/

namespace Livre

theorem hmLookup_map_self {α : Type} (k : Nat) (v : α) (m : List (Nat × α))
    (h : m.any (fun p => p.1 == k) = true) :
    hmLookup k (m.map (fun p => if p.1 == k then (k, v) else p)) = some v := by
  induction m with
  | nil => simp at h
  | cons x rest ih =>
    obtain ⟨k1, v1⟩ := x
    rw [List.any_cons] at h
    by_cases hx : k1 = k
    · subst hx
      simp only [List.map_cons]
      rw [if_pos (by simp)]
      simp [hmLookup]
    · have hx1 : (k1 == k) = false := by simp [hx]
      have hx2 : (((k1, v1) : Nat × α).1 == k) = false := hx1
      rw [hx2, Bool.false_or] at h
      simp only [List.map_cons]
      rw [if_neg (by simp [hx])]
      simpa [hmLookup, hx1] using ih h

theorem hmLookup_append_self {α : Type} (k : Nat) (v : α) (m : List (Nat × α))
    (h : m.any (fun p => p.1 == k) = false) :
    hmLookup k (m ++ [(k, v)]) = some v := by
  induction m with
  | nil => simp [hmLookup]
  | cons x rest ih =>
    obtain ⟨k1, v1⟩ := x
    rw [List.any_cons] at h
    cases hx1 : (((k1, v1) : Nat × α).1 == k) with
    | true => rw [hx1] at h; simp at h
    | false =>
      rw [hx1, Bool.false_or] at h
      have hne : (k1 == k) = false := hx1
      simpa [hmLookup, hne] using ih h

theorem hmLookup_hmInsert_self {α : Type} (k : Nat) (v : α) (m : List (Nat × α)) :
    hmLookup k (hmInsert k v m) = some v := by
  unfold hmInsert
  cases h : m.any (fun p => p.1 == k) with
  | true => simpa using hmLookup_map_self k v m h
  | false => simpa using hmLookup_append_self k v m h

theorem hmLookup_hmRemove_self {α : Type} (k : Nat) (m : List (Nat × α)) :
    hmLookup k (hmRemove k m) = none := by
  induction m with
  | nil => rfl
  | cons x rest ih =>
    obtain ⟨k1, v1⟩ := x
    by_cases hx : k1 = k
    · have hx1 : (k1 == k) = true := by simp [hx]
      simpa [hmRemove, List.filter_cons, hx1] using ih
    · have hx1 : (k1 == k) = false := by simp [hx]
      simpa [hmRemove, List.filter_cons, hx1, hmLookup] using ih

theorem btLookup_btInsert_self {α : Type} (k : Nat) (v : α) (m : List (Nat × α)) :
    btLookup k (btInsert k v m) = some v := by
  induction m with
  | nil => simp [btInsert, btLookup]
  | cons x rest ih =>
    obtain ⟨k1, v1⟩ := x
    by_cases hlt : k < k1
    · simp [btInsert, btLookup, hlt]
    · by_cases heq : k = k1
      · simp [btInsert, btLookup, hlt, heq]
      · have hne : (k == k1) = false := by simp [heq]
        simpa [btInsert, btLookup, hlt, hne] using ih

theorem findIdx_append_single {α : Type} (p : α → Bool) (l : List α) (a : α)
    (i : Nat) (hl : ∀ x ∈ l, p x = false) (ha : p a = true) :
    List.findIdx? p (l ++ [a]) i = some (i + l.length) := by
  induction l generalizing i with
  | nil => simp [List.findIdx?_cons, ha]
  | cons x rest ih =>
    have hx : p x = false := hl x (by simp)
    have hrest : ∀ y ∈ rest, p y = false := fun y hy => hl y (by simp [hy])
    have := ih (i + 1) hrest
    simp only [List.cons_append, List.findIdx?_cons, hx]
    simp only [Bool.false_eq_true, if_false]
    rw [this]
    congr 1
    simp [List.length_cons]
    omega

theorem sideLevels_setSideLevels (b : Orderbook) (s : Side)
    (m : List (Nat × List Order)) : (b.setSideLevels s m).sideLevels s = m := by
  cases s <;> rfl

theorem orders_setSideLevels (b : Orderbook) (s : Side)
    (m : List (Nat × List Order)) : (b.setSideLevels s m).orders = b.orders := by
  cases s <;> rfl

end Livre

namespace Livre

/-- A state on which the bid-side sweep loops forever: the incoming order
is already filled, but the only ask level still crosses its limit and is
non-empty, so each iteration pops the level, matches nothing (the inner
loop exits at once on a filled order) and re-inserts the level unchanged;
the outer loop has no is-filled exit. -/
theorem matchOrderLoopBid_stuck (bids0 : List (Nat × List Order))
    (idx : List (Nat × LevelIdentifier)) (bp : Nat) (maker : Order)
    (q : List Order) (o : Order)
    (hfill : o.is_filled = true) (hbp : ¬ bp > o.price) :
    ∀ (fuel : Nat) (log : List Trade),
      matchOrderLoopBid fuel ⟨bids0, [(bp, maker :: q)], idx⟩ o log = none := by
  intro fuel
  induction fuel with
  | zero => intro log; rfl
  | succ n ih =>
    intro log
    have hml : Orderbook.match_level ⟨bids0, [], idx⟩ bp (maker :: q) o log =
        (⟨bids0, [(bp, maker :: q)], idx⟩, o, log) := by
      simp [Orderbook.match_level, matchLevelLoop, hfill, btInsert]
    simp only [matchOrderLoopBid, popFirst]
    rw [if_neg hbp, hml]
    exact ih log

/-! Scenario constants for the concrete claims. -/

def bookC1 : Orderbook :=
  ⟨[], [(100, [⟨1, .GoodTillCancel, .Ask, 100, 5, 5⟩])], [(1, ⟨100, .Ask⟩)]⟩

def takerC1 : Order := ⟨2, .GoodTillCancel, .Bid, 100, 3, 3⟩

/-- C1: the claim is false on the code: the matching sweep does not always
terminate.  On a book with one resting ask (id=1, qty=5, price=100), an
incoming GoodTillCancel bid (id=2, qty=3, price=100) is fully filled while
the ask level stays non-empty; `match_level` re-inserts the level and the
`match_order` loop, which only stops on a non-crossing price or an empty
opposite side, pops it again forever: for every fuel the model returns
`none` (the loop is still running). -/
theorem c1_matching_sweep_diverges :
    ∀ fuel : Nat, Orderbook.add_order fuel bookC1 takerC1 = none := by
  intro fuel
  cases fuel with
  | zero => rfl
  | succ n =>
    have h1 : Orderbook.match_order (n + 1) bookC1 takerC1 =
        matchOrderLoopBid n
          ⟨[], [(100, [⟨1, .GoodTillCancel, .Ask, 100, 5, 2⟩])], [(1, ⟨100, .Ask⟩)]⟩
          ⟨2, .GoodTillCancel, .Bid, 100, 3, 0⟩ [⟨2, 1, 100, 3⟩] := rfl
    have hm : Orderbook.match_order (n + 1) bookC1 takerC1 = none := by
      rw [h1]
      exact matchOrderLoopBid_stuck [] [(1, ⟨100, .Ask⟩)] 100
        ⟨1, .GoodTillCancel, .Ask, 100, 5, 2⟩ [] ⟨2, .GoodTillCancel, .Bid, 100, 3, 0⟩
        rfl (by decide) n [⟨2, 1, 100, 3⟩]
    show addOrderRest (n + 1) bookC1 takerC1 = none
    rw [addOrderRest, hm]

def askC4a : Order := ⟨1, .GoodTillCancel, .Ask, 100, 5, 5⟩
def askC4b : Order := ⟨2, .GoodTillCancel, .Ask, 100, 5, 5⟩
def bookC4a : Orderbook := ⟨[], [(100, [askC4a])], [(1, ⟨100, .Ask⟩)]⟩
def bookC4 : Orderbook :=
  ⟨[], [(100, [askC4a, askC4b])], [(1, ⟨100, .Ask⟩), (2, ⟨100, .Ask⟩)]⟩
def takerC4 : Order := ⟨3, .GoodTillCancel, .Bid, 100, 7, 7⟩

/-- C4: the claim is false on the code: on resting asks id=1 qty=5 then
id=2 qty=5 at price 100, `add_order` of a GoodTillCancel bid id=3 qty=7
price=100 never returns.  The two fills (5 from id=1, 2 from id=2) do
happen in the first pass, but id=2 is left resting with quantity 3, the
level is re-inserted, and the level sweep loops forever: for every fuel
the model returns `none`. -/
theorem c4_priority_scenario_diverges :
    Orderbook.add_order 3 Orderbook.new askC4a =
      some (.ok ⟨[], .Unfilled⟩, bookC4a) ∧
    Orderbook.add_order 3 bookC4a askC4b =
      some (.ok ⟨[], .Unfilled⟩, bookC4) ∧
    ∀ fuel : Nat, Orderbook.add_order fuel bookC4 takerC4 = none := by
  refine ⟨rfl, rfl, ?_⟩
  intro fuel
  cases fuel with
  | zero => rfl
  | succ n =>
    have h1 : Orderbook.match_order (n + 1) bookC4 takerC4 =
        matchOrderLoopBid n
          ⟨[], [(100, [⟨2, .GoodTillCancel, .Ask, 100, 5, 3⟩])], [(2, ⟨100, .Ask⟩)]⟩
          ⟨3, .GoodTillCancel, .Bid, 100, 7, 0⟩
          [⟨3, 1, 100, 5⟩, ⟨3, 2, 100, 2⟩] := rfl
    have hm : Orderbook.match_order (n + 1) bookC4 takerC4 = none := by
      rw [h1]
      exact matchOrderLoopBid_stuck [] [(2, ⟨100, .Ask⟩)] 100
        ⟨2, .GoodTillCancel, .Ask, 100, 5, 3⟩ [] ⟨3, .GoodTillCancel, .Bid, 100, 7, 0⟩
        rfl (by decide) n [⟨3, 1, 100, 5⟩, ⟨3, 2, 100, 2⟩]
    show addOrderRest (n + 1) bookC4 takerC4 = none
    rw [addOrderRest, hm]

end Livre

namespace Livre

def bidC2 : Order := ⟨1, .GoodTillCancel, .Bid, 100, 5, 5⟩
def askC2 : Order := ⟨2, .GoodTillCancel, .Ask, 100, 3, 3⟩
def bookC2a : Orderbook := ⟨[(100, [bidC2])], [], [(1, ⟨100, .Bid⟩)]⟩
def bookC2b : Orderbook :=
  ⟨[], [(100, [⟨1, .GoodTillCancel, .Bid, 100, 5, 2⟩])], [(1, ⟨100, .Bid⟩)]⟩

/-- C2: the claim is false on the code: after two successful operations
(add a GoodTillCancel bid id=1 qty=5 price=100, then add a GoodTillCancel
ask id=2 qty=3 price=100, which trades 3 and leaves the bid with
remaining=2), the Index still records id=1 at (price 100, side Bid), but
the bid side is empty: `match_level` re-inserted the partially consumed
bid level into `self.asks`, so the resting bid order now sits in an ask
price level.  The Index entry and the levels disagree on the side. -/
theorem c2_index_level_consistency_broken :
    Orderbook.add_order 3 Orderbook.new bidC2 =
      some (.ok ⟨[], .Unfilled⟩, bookC2a) ∧
    Orderbook.add_order 3 bookC2a askC2 =
      some (.ok ⟨[⟨2, 1, 100, 3⟩], .Filled⟩, bookC2b) ∧
    hmLookup 1 bookC2b.orders = some ⟨100, .Bid⟩ ∧
    bookC2b.bids = [] ∧
    btLookup 100 bookC2b.asks = some [⟨1, .GoodTillCancel, .Bid, 100, 5, 2⟩] :=
  ⟨rfl, rfl, rfl, rfl, rfl⟩

def bookC3 : Orderbook :=
  ⟨[(50, [⟨10, .GoodTillCancel, .Bid, 50, 10, 10⟩]),
    (100, [⟨11, .GoodTillCancel, .Bid, 100, 10, 10⟩])],
   [], [(10, ⟨50, .Bid⟩), (11, ⟨100, .Bid⟩)]⟩

/-- C3: the claim is false on the code: `can_fully_fill` walks the
levels of the opposite side in reverse priority order (for an incoming Ask it
iterates `bids` ascending, worst price first) and returns false as soon
as it reaches a level whose price does not qualify.  On a book with bid
levels (price 50, qty 10) and (price 100, qty 10), an Ask of price 100
and quantity 5 is fully fillable by the qualifying liquidity (10 ≥ 5) and
`can_match` holds, yet `can_fully_fill` hits the non-qualifying level
50 < 100 first and returns false. -/
theorem c3_can_fully_fill_walks_worst_first :
    Orderbook.can_match bookC3 .Ask 100 = true ∧
    Orderbook.can_fully_fill bookC3 100 5 .Ask = false ∧
    ((bookC3.bids.filter (fun p => decide (100 ≤ p.1))).map
      (fun p => (p.2.map Order.remaining_quantity).sum)).sum = 10 ∧
    5 ≤ 10 :=
  ⟨rfl, rfl, rfl, by decide⟩

def askC5 : Order := ⟨5, .GoodTillCancel, .Ask, 100, 3, 3⟩
def bookC5 : Orderbook := ⟨[], [(100, [askC5])], [(5, ⟨100, .Ask⟩)]⟩
def fakC5 : Order := ⟨6, .FillAndKill, .Bid, 100, 10, 10⟩

/-- C5 counterexample: the claim says `order_count` is unchanged, but in
the scenario (one resting ask id=5 qty=3 at 100; incoming FillAndKill bid
qty=10 at 100) the maker id=5 is fully filled and removed from the Index,
so `order_count` drops from 1 to 0. -/
theorem c5_order_count_changes :
    Orderbook.add_order 3 bookC5 fakC5 =
      some (.ok ⟨[⟨6, 5, 100, 3⟩], .PartialFill 3⟩, Orderbook.new) ∧
    Orderbook.order_count bookC5 = 1 ∧
    Orderbook.order_count Orderbook.new = 0 ∧
    (1 : Nat) ≠ 0 :=
  ⟨rfl, rfl, rfl, by decide⟩

/-- C5 amended: the FillAndKill bid is admitted (crossing liquidity
exists), trades for quantity 3, has its remaining 7 discarded rather than
rested, and its id 6 never appears in the Index; `order_count`, however,
drops from 1 to 0, because the fully filled maker id=5 is removed.  The
resulting book is empty. -/
theorem c5_fak_partial_then_discard :
    Orderbook.can_match bookC5 .Bid 100 = true ∧
    Orderbook.add_order 3 bookC5 fakC5 =
      some (.ok ⟨[⟨6, 5, 100, 3⟩], .PartialFill 3⟩, Orderbook.new) ∧
    hmLookup 6 Orderbook.new.orders = none ∧
    hmLookup 5 Orderbook.new.orders = none ∧
    Orderbook.order_count bookC5 = 1 ∧
    Orderbook.order_count Orderbook.new = 0 :=
  ⟨rfl, rfl, rfl, rfl, rfl, rfl⟩

end Livre

namespace Livre

/-- Once admission has passed, `add_order` cannot fail any more: the
match-and-rest code always returns `Ok`. -/
theorem addOrderRest_ok (fuel : Nat) (b : Orderbook) (o : Order)
    (p : Except LivreError MatchInfo × Orderbook)
    (h : addOrderRest fuel b o = some p) : ∃ mi, p.1 = Except.ok mi := by
  unfold addOrderRest at h
  cases hm : Orderbook.match_order fuel b o with
  | none => rw [hm] at h; exact absurd h (by simp)
  | some r =>
    obtain ⟨b1, o1, log⟩ := r
    rw [hm] at h
    dsimp only at h
    split at h <;> (injection h with h2; subst h2; exact ⟨_, rfl⟩)

/-- C6: for every book state and order, if `add_order` returns an error
(UnfillableOrder or DuplicateOrderId), the book is exactly what it was
before the call.  All admission checks run strictly before any mutation,
and the post-admission path never produces an error, so every error
result carries the untouched book (and an error carries no trades). -/
theorem c6_failed_add_is_noop (fuel : Nat) (b : Orderbook) (o : Order)
    (e : LivreError) (b1 : Orderbook)
    (h : Orderbook.add_order fuel b o = some (.error e, b1)) :
    b1 = b := by
  unfold Orderbook.add_order at h
  cases ht : o.order_type <;> rw [ht] at h <;> dsimp only at h <;> (
    split at h
    · simp only [Option.some.injEq, Prod.mk.injEq] at h
      exact h.2.symm
    · obtain ⟨mi, hmi⟩ := addOrderRest_ok fuel b o _ h
      exact absurd hmi (by simp))

def bookC6 : Orderbook :=
  ⟨[], [(90, [⟨1, .GoodTillCancel, .Ask, 90, 5, 5⟩]),
        (100, [⟨2, .GoodTillCancel, .Ask, 100, 3, 3⟩])],
   [(1, ⟨90, .Ask⟩), (2, ⟨100, .Ask⟩)]⟩

def fokC6 : Order := ⟨7, .FillOrKill, .Bid, 100, 10, 10⟩

theorem c6_failed_add_is_noop_witness :
    Orderbook.add_order 3 bookC6 fokC6 =
      some (.error .UnfillableOrder, bookC6) ∧ bookC6 = bookC6 :=
  ⟨rfl, c6_failed_add_is_noop 3 bookC6 fokC6 .UnfillableOrder bookC6 rfl⟩

/-- C7: for an order whose id is already in the Index, the duplicate-id
check fires (with error DuplicateOrderId) exactly for the order types
GoodTillCancel, GoodForDay and Market; FillAndKill and FillOrKill are
matched by the earlier admission arms, which bypass the Index lookup, so
they can never fail with DuplicateOrderId. -/
theorem c7_duplicate_id_check_asymmetry (fuel : Nat) (b : Orderbook)
    (o : Order) (h : hmContains o.order_id b.orders = true) :
    ((o.order_type = .GoodTillCancel ∨ o.order_type = .GoodForDay ∨
        o.order_type = .Market) →
      Orderbook.add_order fuel b o = some (.error .DuplicateOrderId, b)) ∧
    ((o.order_type = .FillAndKill ∨ o.order_type = .FillOrKill) →
      ∀ (r : LivreError) (b1 : Orderbook),
        Orderbook.add_order fuel b o = some (.error r, b1) →
        r ≠ .DuplicateOrderId) := by
  constructor
  · intro ht
    rcases ht with ht | ht | ht <;> simp [Orderbook.add_order, ht, h]
  · intro ht r b1 hadd
    rcases ht with ht | ht <;> (
      unfold Orderbook.add_order at hadd
      rw [ht] at hadd
      dsimp only at hadd
      split at hadd
      · simp only [Option.some.injEq, Prod.mk.injEq, Except.error.injEq] at hadd
        rw [← hadd.1]
        simp
      · obtain ⟨mi, hmi⟩ := addOrderRest_ok fuel b o _ hadd
        exact absurd hmi (by simp))

def bookC7 : Orderbook :=
  ⟨[(100, [⟨1, .GoodTillCancel, .Bid, 100, 5, 5⟩])], [], [(1, ⟨100, .Bid⟩)]⟩

def dupC7 : Order := ⟨1, .GoodTillCancel, .Bid, 90, 2, 2⟩

theorem c7_duplicate_id_check_asymmetry_witness :
    hmContains 1 bookC7.orders = true ∧
    Orderbook.add_order 3 bookC7 dupC7 =
      some (.error .DuplicateOrderId, bookC7) :=
  ⟨rfl, (c7_duplicate_id_check_asymmetry 3 bookC7 dupC7 rfl).1 (Or.inl rfl)⟩

end Livre

namespace Livre

/-- C9: cancelling the only order at its price level removes the order
from the level and from the Index, but the emptied level stays present in
the ordered collection of the book: `cancel_order` only calls `remove` on the
queue, never on the price map. -/
theorem c9_cancel_keeps_empty_level (b : Orderbook) (oid p : Nat) (s : Side)
    (ord : Order)
    (h1 : hmLookup oid b.orders = some ⟨p, s⟩)
    (h2 : btLookup p (b.sideLevels s) = some [ord])
    (h3 : ord.order_id = oid) :
    ∃ b2 : Orderbook,
      b.cancel_order oid = some (.ok ord, b2) ∧
      btLookup p (b2.sideLevels s) = some [] ∧
      hmLookup oid b2.orders = none := by
  have hidx : List.findIdx? (fun x => x.order_id == oid) [ord] = some 0 := by
    simp [List.findIdx?_cons, h3]
  refine ⟨({ b with orders := hmRemove oid b.orders } : Orderbook).setSideLevels s
    (btInsert p []
      (({ b with orders := hmRemove oid b.orders } : Orderbook).sideLevels s)),
    ?_, ?_, ?_⟩
  · simp only [Orderbook.cancel_order, h1, h2, hidx]
    rfl
  · rw [sideLevels_setSideLevels]
    exact btLookup_btInsert_self p _ _
  · rw [orders_setSideLevels]
    exact hmLookup_hmRemove_self oid b.orders

def ordC9 : Order := ⟨7, .GoodTillCancel, .Bid, 50, 4, 4⟩
def bookC9 : Orderbook := ⟨[(50, [ordC9])], [], [(7, ⟨50, .Bid⟩)]⟩

theorem c9_cancel_keeps_empty_level_witness :
    hmLookup 7 bookC9.orders = some ⟨50, .Bid⟩ ∧
    btLookup 50 (bookC9.sideLevels .Bid) = some [ordC9] ∧
    ∃ b2 : Orderbook,
      bookC9.cancel_order 7 = some (.ok ordC9, b2) ∧
      btLookup 50 (b2.sideLevels .Bid) = some [] ∧
      hmLookup 7 b2.orders = none :=
  ⟨rfl, rfl, c9_cancel_keeps_empty_level bookC9 7 50 .Bid ordC9 rfl rfl rfl⟩

end Livre

namespace Livre

theorem popLast_cons_isSome {α : Type} (x : Nat × α) (l : List (Nat × α)) :
    (popLast (x :: l)).isSome = true := by
  cases hpl : popLast l with
  | none => simp [popLast, hpl]
  | some pr => simp [popLast, hpl]

theorem sideLevels_orders_update (b : Orderbook)
    (y : List (Nat × LevelIdentifier)) (s : Side) :
    ({ b with orders := y } : Orderbook).sideLevels s = b.sideLevels s := by
  cases s <;> rfl

/-- If no ask level crosses the limit of an incoming bid, the bid-side sweep
returns immediately, leaving the book unchanged except for popping and
re-inserting the best ask level. -/
theorem matchOrderLoopBid_nocross (fuel : Nat) (b : Orderbook) (o : Order)
    (log : List Trade) (h : b.can_match .Bid o.price = false) :
    ∃ asks1, matchOrderLoopBid (fuel + 1) b o log =
      some ({ b with asks := asks1 }, o, log) := by
  obtain ⟨bids0, asks0, idx0⟩ := b
  cases asks0 with
  | nil => exact ⟨[], rfl⟩
  | cons x rest =>
    obtain ⟨k, q⟩ := x
    have hk : o.price < k := by
      simp [Orderbook.can_match, btFirstKV] at h
      omega
    refine ⟨btInsert k q rest, ?_⟩
    simp only [matchOrderLoopBid, popFirst]
    rw [if_pos hk]

/-- The symmetric statement for an incoming ask against the bid side. -/
theorem matchOrderLoopAsk_nocross (fuel : Nat) (b : Orderbook) (o : Order)
    (log : List Trade) (h : b.can_match .Ask o.price = false) :
    ∃ bids1, matchOrderLoopAsk (fuel + 1) b o log =
      some ({ b with bids := bids1 }, o, log) := by
  obtain ⟨bids0, asks0, idx0⟩ := b
  cases bids0 with
  | nil => exact ⟨[], rfl⟩
  | cons x rest =>
    cases hpop : popLast (x :: rest) with
    | none =>
      have := popLast_cons_isSome x rest
      rw [hpop] at this
      exact absurd this (by simp)
    | some pr =>
      obtain ⟨⟨k, q⟩, init⟩ := pr
      have hk : k < o.price := by
        simp [Orderbook.can_match, btLastKV, hpop] at h
        omega
      refine ⟨btInsert k q init, ?_⟩
      simp only [matchOrderLoopAsk, hpop]
      rw [if_pos hk]

/-- Successful `cancel_order`, specified for a book whose index entry and
level agree, when the cancelled order is the last of its queue and no
earlier order in the queue shares its id. -/
theorem cancel_spec (b : Orderbook) (o : Order) (Q : List Order)
    (h1 : hmLookup o.order_id b.orders = some ⟨o.price, o.side⟩)
    (h2 : btLookup o.price (b.sideLevels o.side) = some (Q ++ [o]))
    (hQ : ∀ x ∈ Q, x.order_id ≠ o.order_id) :
    b.cancel_order o.order_id =
      some (.ok o,
        ({ b with orders := hmRemove o.order_id b.orders } : Orderbook).setSideLevels
          o.side
          (btInsert o.price Q
            (({ b with orders := hmRemove o.order_id b.orders } : Orderbook).sideLevels
              o.side))) := by
  have hfind : List.findIdx? (fun x => x.order_id == o.order_id) (Q ++ [o]) =
      some Q.length := by
    have := findIdx_append_single (fun x => x.order_id == o.order_id) Q o 0
      (fun x hx => by simp [hQ x hx]) (by simp)
    simpa using this
  have hget : (Q ++ [o])[Q.length]? = some o := List.getElem?_concat_length Q o
  have herase : (Q ++ [o]).eraseIdx Q.length = Q := by
    rw [List.eraseIdx_append_of_length_le (Nat.le_refl Q.length)]
    simp
  simp only [Orderbook.cancel_order, h1, h2, hfind, hget, herase]

/-- Running `cancel_order` on an id absent from the Index fails with OrderNotFound
and leaves the book untouched. -/
theorem cancel_missing (b : Orderbook) (oid : Nat)
    (h : hmLookup oid b.orders = none) :
    b.cancel_order oid = some (.error .OrderNotFound, b) := by
  simp only [Orderbook.cancel_order, h]

end Livre

namespace Livre

/-- C8: for a book with no liquidity crossing the limit of the order (and a
well-formed starting state: the id of the order is fresh for the Index and for
its own-side level), adding a GoodTillCancel order and then cancelling it
succeeds; the cancelled order is returned unchanged, with
remaining equal to initial quantity; a second cancel of the same id fails
with OrderNotFound. -/
theorem c8_add_cancel_roundtrip (fuel : Nat) (b : Orderbook) (o : Order)
    (h0 : o.remaining_quantity ≠ 0)
    (h1 : o.order_type = OrderType.GoodTillCancel)
    (h2 : o.initial_quantity = o.remaining_quantity)
    (h3 : b.can_match o.side o.price = false)
    (h4 : hmLookup o.order_id b.orders = none)
    (h5 : ∀ q, btLookup o.price (b.sideLevels o.side) = some q →
        ∀ x ∈ q, x.order_id ≠ o.order_id) :
    ∃ b1 b2 : Orderbook,
      Orderbook.add_order (fuel + 1) b o =
        some (.ok ⟨[], .Unfilled⟩, b1) ∧
      b1.cancel_order o.order_id = some (.ok o, b2) ∧
      b2.cancel_order o.order_id = some (.error .OrderNotFound, b2) := by
  have hdup : hmContains o.order_id b.orders = false := by
    rw [hmContains, h4]
    rfl
  have hstate : o.order_state = .Unfilled := by
    simp [Order.order_state, h2]
  have hfil : o.is_filled = false := by
    simp [Order.is_filled, h0]
  obtain ⟨N, hmatch, hNside, hNorders⟩ :
      ∃ N, Orderbook.match_order (fuel + 1) b o = some (N, o, []) ∧
        N.sideLevels o.side = b.sideLevels o.side ∧ N.orders = b.orders := by
    cases hside : o.side with
    | Bid =>
      rw [hside] at h3
      obtain ⟨asks1, hl⟩ := matchOrderLoopBid_nocross fuel b o [] h3
      refine ⟨{ b with asks := asks1 }, ?_, ?_, rfl⟩
      · unfold Orderbook.match_order
        rw [hside]
        exact hl
      · rfl
    | Ask =>
      rw [hside] at h3
      obtain ⟨bids1, hl⟩ := matchOrderLoopAsk_nocross fuel b o [] h3
      refine ⟨{ b with bids := bids1 }, ?_, ?_, rfl⟩
      · unfold Orderbook.match_order
        rw [hside]
        exact hl
      · rfl
  have hadd : Orderbook.add_order (fuel + 1) b o =
      some (.ok ⟨[], .Unfilled⟩,
        ({ N with orders := hmInsert o.order_id ⟨o.price, o.side⟩ N.orders } :
            Orderbook).setSideLevels o.side
          (btPushBack o.price o
            (({ N with orders := hmInsert o.order_id ⟨o.price, o.side⟩ N.orders } :
                Orderbook).sideLevels o.side))) := by
    unfold Orderbook.add_order
    rw [h1]
    dsimp only
    rw [if_neg (by simp [hdup])]
    unfold addOrderRest
    rw [hmatch]
    dsimp only
    rw [hfil, h1, hstate]
    simp [restingEligible]
  set B3 : Orderbook :=
    ({ N with orders := hmInsert o.order_id ⟨o.price, o.side⟩ N.orders } :
        Orderbook).setSideLevels o.side
      (btPushBack o.price o
        (({ N with orders := hmInsert o.order_id ⟨o.price, o.side⟩ N.orders } :
            Orderbook).sideLevels o.side)) with hB3
  have hb3orders : B3.orders = hmInsert o.order_id ⟨o.price, o.side⟩ b.orders := by
    rw [hB3, orders_setSideLevels]
    show hmInsert o.order_id ⟨o.price, o.side⟩ N.orders = _
    rw [hNorders]
  have hb3side : B3.sideLevels o.side = btPushBack o.price o (b.sideLevels o.side) := by
    rw [hB3, sideLevels_setSideLevels, sideLevels_orders_update, hNside]
  obtain ⟨Q, hQlook, hQid⟩ :
      ∃ Q, btLookup o.price (btPushBack o.price o (b.sideLevels o.side)) =
          some (Q ++ [o]) ∧ ∀ x ∈ Q, x.order_id ≠ o.order_id := by
    unfold btPushBack
    cases hq : btLookup o.price (b.sideLevels o.side) with
    | none =>
      refine ⟨[], ?_, by simp⟩
      simpa using btLookup_btInsert_self o.price [o] (b.sideLevels o.side)
    | some q =>
      exact ⟨q, btLookup_btInsert_self o.price (q ++ [o]) (b.sideLevels o.side),
        h5 q hq⟩
  have hc1 : B3.cancel_order o.order_id =
      some (.ok o,
        ({ B3 with orders := hmRemove o.order_id B3.orders } : Orderbook).setSideLevels
          o.side
          (btInsert o.price Q
            (({ B3 with orders := hmRemove o.order_id B3.orders } :
                Orderbook).sideLevels o.side))) := by
    apply cancel_spec B3 o Q
    · rw [hb3orders]
      exact hmLookup_hmInsert_self o.order_id ⟨o.price, o.side⟩ b.orders
    · rw [hb3side]
      exact hQlook
    · exact hQid
  have hc2lookup :
      hmLookup o.order_id
        ((({ B3 with orders := hmRemove o.order_id B3.orders } :
            Orderbook).setSideLevels o.side
          (btInsert o.price Q
            (({ B3 with orders := hmRemove o.order_id B3.orders } :
                Orderbook).sideLevels o.side))).orders) = none := by
    rw [orders_setSideLevels]
    exact hmLookup_hmRemove_self o.order_id B3.orders
  have hc2 := cancel_missing _ o.order_id hc2lookup
  rw [hB3] at hadd hc1
  exact ⟨_, _, hadd, hc1, hc2⟩
end Livre

namespace Livre

def ordC8 : Order := ⟨7, .GoodTillCancel, .Bid, 50, 4, 4⟩

theorem c8_add_cancel_roundtrip_witness :
    ordC8.remaining_quantity ≠ 0 ∧
    Orderbook.new.can_match ordC8.side ordC8.price = false ∧
    hmLookup ordC8.order_id Orderbook.new.orders = none ∧
    ∃ b1 b2 : Orderbook,
      Orderbook.add_order 3 Orderbook.new ordC8 =
        some (.ok ⟨[], .Unfilled⟩, b1) ∧
      b1.cancel_order ordC8.order_id = some (.ok ordC8, b2) ∧
      b2.cancel_order ordC8.order_id = some (.error .OrderNotFound, b2) :=
  ⟨by decide, rfl, rfl,
    c8_add_cancel_roundtrip 2 Orderbook.new ordC8 (by decide) rfl rfl rfl rfl
      (fun q hq => by
        simp [btLookup, Orderbook.sideLevels, Orderbook.new, ordC8] at hq)⟩

end Livre

namespace Livre

/-- An order with its type tag replaced; used to state the
Market/GoodTillCancel refinement claim. -/
def setT (o : Order) (t : OrderType) : Order := { o with order_type := t }

/-- Erase the type tag of an order (normalise it to GoodTillCancel). -/
def stripOrder (o : Order) : Order := { o with order_type := .GoodTillCancel }

def stripLevels (m : List (Nat × List Order)) : List (Nat × List Order) :=
  m.map (fun p => (p.1, p.2.map stripOrder))

/-- A book up to the type tags recorded on its resting orders. -/
def stripBook (b : Orderbook) : Orderbook :=
  ⟨stripLevels b.bids, stripLevels b.asks, b.orders⟩

def stripRes (r : Option (Except LivreError MatchInfo × Orderbook)) :
    Option (Except LivreError MatchInfo × Orderbook) :=
  r.map (fun p => (p.1, stripBook p.2))

@[simp] theorem setT_order_id (o : Order) (t : OrderType) :
    (setT o t).order_id = o.order_id := rfl

@[simp] theorem setT_side (o : Order) (t : OrderType) :
    (setT o t).side = o.side := rfl

@[simp] theorem setT_price (o : Order) (t : OrderType) :
    (setT o t).price = o.price := rfl

@[simp] theorem setT_initial (o : Order) (t : OrderType) :
    (setT o t).initial_quantity = o.initial_quantity := rfl

@[simp] theorem setT_remaining (o : Order) (t : OrderType) :
    (setT o t).remaining_quantity = o.remaining_quantity := rfl

@[simp] theorem setT_order_type (o : Order) (t : OrderType) :
    (setT o t).order_type = t := rfl

@[simp] theorem setT_is_filled (o : Order) (t : OrderType) :
    (setT o t).is_filled = o.is_filled := rfl

@[simp] theorem setT_order_state (o : Order) (t : OrderType) :
    (setT o t).order_state = o.order_state := rfl

@[simp] theorem setT_fillU (o : Order) (t : OrderType) (q : Nat) :
    (setT o t).fillU q = setT (o.fillU q) t := rfl

@[simp] theorem stripLevels_nil : stripLevels [] = [] := rfl

@[simp] theorem stripLevels_cons (k1 : Nat) (v1 : List Order)
    (rest : List (Nat × List Order)) :
    stripLevels ((k1, v1) :: rest) = (k1, v1.map stripOrder) :: stripLevels rest := rfl

/-- The level sweep never reads the type of the incoming order. -/
theorem matchLevelLoop_setT (queue : List Order)
    (idx : List (Nat × LevelIdentifier)) (o : Order) (log : List Trade)
    (bp : Nat) (t : OrderType) :
    matchLevelLoop idx queue (setT o t) log bp =
      ((matchLevelLoop idx queue o log bp).1,
       (matchLevelLoop idx queue o log bp).2.1,
       setT (matchLevelLoop idx queue o log bp).2.2.1 t,
       (matchLevelLoop idx queue o log bp).2.2.2) := by
  induction queue generalizing idx o log with
  | nil => rfl
  | cons maker rest ih =>
    simp only [matchLevelLoop, setT_is_filled, setT_remaining, setT_order_id,
      setT_fillU]
    by_cases hf : o.is_filled = true
    · rw [if_pos hf, if_pos hf]
    · rw [if_neg hf, if_neg hf]
      by_cases hm :
          (maker.fillU (min maker.remaining_quantity o.remaining_quantity)).is_filled
            = true
      · rw [if_pos hm, if_pos hm]
        exact ih _ _ _
      · rw [if_neg hm, if_neg hm]

/-- No read of the type of the incoming order happens in `match_level`. -/
theorem match_level_setT (b : Orderbook) (bp : Nat) (queue : List Order)
    (o : Order) (log : List Trade) (t : OrderType) :
    Orderbook.match_level b bp queue (setT o t) log =
      ((Orderbook.match_level b bp queue o log).1,
       setT (Orderbook.match_level b bp queue o log).2.1 t,
       (Orderbook.match_level b bp queue o log).2.2) := by
  unfold Orderbook.match_level
  rw [matchLevelLoop_setT]
  dsimp only
  by_cases hq : (matchLevelLoop b.orders queue o log bp).2.1.isEmpty = true
  · rw [if_pos hq, if_pos hq]
  · rw [if_neg hq, if_neg hq]

/-- The bid-side sweep never reads the type of the incoming order. -/
theorem matchOrderLoopBid_setT (fuel : Nat) (b : Orderbook) (o : Order)
    (log : List Trade) (t : OrderType) :
    matchOrderLoopBid fuel b (setT o t) log =
      (matchOrderLoopBid fuel b o log).map
        (fun r => (r.1, setT r.2.1 t, r.2.2)) := by
  induction fuel generalizing b o log with
  | zero => rfl
  | succ n ih =>
    simp only [matchOrderLoopBid]
    cases hpf : popFirst b.asks with
    | none => rfl
    | some pr =>
      obtain ⟨⟨bp, q⟩, rest⟩ := pr
      simp only [setT_price]
      by_cases hc : bp > o.price
      · rw [if_pos hc, if_pos hc]
        rfl
      · rw [if_neg hc, if_neg hc]
        rw [match_level_setT]
        dsimp only
        rw [ih]

/-- The ask-side sweep never reads the type of the incoming order. -/
theorem matchOrderLoopAsk_setT (fuel : Nat) (b : Orderbook) (o : Order)
    (log : List Trade) (t : OrderType) :
    matchOrderLoopAsk fuel b (setT o t) log =
      (matchOrderLoopAsk fuel b o log).map
        (fun r => (r.1, setT r.2.1 t, r.2.2)) := by
  induction fuel generalizing b o log with
  | zero => rfl
  | succ n ih =>
    simp only [matchOrderLoopAsk]
    cases hpl : popLast b.bids with
    | none => rfl
    | some pr =>
      obtain ⟨⟨bp, q⟩, rest⟩ := pr
      simp only [setT_price]
      by_cases hc : bp < o.price
      · rw [if_pos hc, if_pos hc]
        rfl
      · rw [if_neg hc, if_neg hc]
        rw [match_level_setT]
        dsimp only
        rw [ih]

/-- No read of the type of the incoming order happens in `match_order`. -/
theorem match_order_setT (fuel : Nat) (b : Orderbook) (o : Order)
    (t : OrderType) :
    Orderbook.match_order fuel b (setT o t) =
      (Orderbook.match_order fuel b o).map
        (fun r => (r.1, setT r.2.1 t, r.2.2)) := by
  unfold Orderbook.match_order
  simp only [setT_side]
  cases hs : o.side <;> dsimp only
  · exact matchOrderLoopBid_setT fuel b o [] t
  · exact matchOrderLoopAsk_setT fuel b o [] t

theorem stripLevels_btInsert (k : Nat) (q : List Order)
    (m : List (Nat × List Order)) :
    stripLevels (btInsert k q m) = btInsert k (q.map stripOrder) (stripLevels m) := by
  induction m with
  | nil => rfl
  | cons x rest ih =>
    obtain ⟨k1, v1⟩ := x
    by_cases h1 : k < k1
    · simp [btInsert, stripLevels, h1]
    · by_cases h2 : k = k1
      · have h2b : (k == k1) = true := by simp [h2]
        simp [btInsert, stripLevels, h1, h2b]
      · have hcond : ¬ ((k == k1) = true) := by simp [h2]
        simp only [btInsert, stripLevels_cons]
        rw [if_neg h1, if_neg hcond]
        rw [stripLevels_cons, ih]
        rw [if_neg h1, if_neg hcond]
        rfl

theorem stripLevels_btPushBack (k : Nat) (o1 o2 : Order)
    (m : List (Nat × List Order)) (h : stripOrder o1 = stripOrder o2) :
    stripLevels (btPushBack k o1 m) = stripLevels (btPushBack k o2 m) := by
  unfold btPushBack
  cases hq : btLookup k m with
  | none =>
    rw [stripLevels_btInsert, stripLevels_btInsert]
    simp [h]
  | some q =>
    rw [stripLevels_btInsert, stripLevels_btInsert]
    simp [h]

theorem stripBook_setSideLevels (b : Orderbook) (s : Side)
    (m : List (Nat × List Order)) :
    stripBook (b.setSideLevels s m) = (stripBook b).setSideLevels s (stripLevels m) := by
  cases s <;> rfl

end Livre

namespace Livre

/-- C10: for every book and order, `add_order` of the order with type
Market and of the identical order with type GoodTillCancel take the same
path (same admission branch, same duplicate check, same matching, same
resting decision), return the same result (error, trade log and final
order state), and produce the same final book up to the type tag recorded
on the rested order (`stripBook` erases the tags). -/
theorem c10_market_equals_gtc (fuel : Nat) (b : Orderbook) (o : Order) :
    stripRes (Orderbook.add_order fuel b (setT o .Market)) =
      stripRes (Orderbook.add_order fuel b (setT o .GoodTillCancel)) := by
  unfold Orderbook.add_order
  simp only [setT_order_type, setT_order_id, setT_price, setT_side, setT_initial]
  by_cases hd : hmContains o.order_id b.orders = true
  · rw [if_pos hd, if_pos hd]
  · rw [if_neg hd, if_neg hd]
    unfold addOrderRest
    rw [match_order_setT, match_order_setT]
    cases hm : Orderbook.match_order fuel b o with
    | none => rfl
    | some r =>
      obtain ⟨b1, o1, log⟩ := r
      dsimp only [Option.map]
      simp only [setT_is_filled, setT_order_state, setT_order_id, setT_price,
        setT_side, setT_order_type]
      by_cases hf : o1.is_filled = true
      · simp [hf]
      · have hf2 : (!o1.is_filled) = true := by simp [hf]
        simp only [hf2, Bool.true_and]
        try dsimp only
        simp only [restingEligible]
        rw [if_pos trivial, if_pos trivial]
        simp only [stripRes]
        dsimp only [Option.map]
        rw [stripBook_setSideLevels, stripBook_setSideLevels]
        rw [stripLevels_btPushBack o1.price (setT o1 .Market)
          (setT o1 .GoodTillCancel) _ rfl]

end Livre
